import Mathlib

/-!
Verification development for the `dot_update` webhook service (`src/app.py`).

The service is a single Flask endpoint `POST /update` that
1. validates `emailContent` / `jobNumber`,
2. looks a project record up in Airtable by job number,
3. asks a language model to extract structured fields from the email,
4. strips a markdown fence from the reply and parses it as JSON,
5. builds a partial Airtable update payload from the truthy extracted fields,
6. patches the record when the payload is non-empty, and
7. returns a combined JSON response.

The embedding below translates the pure computations of `app.py`
(`strip_markdown_json`, `get_working_days_from_today`, payload construction,
and the handler's control flow) into executable Lean definitions.  External
effects are passed in as explicit inputs: the record-store lookup result, the
model's reply text, the JSON parser, the current date/time, and the outcome of
the patch call.  Strings are modelled as `List Char` where character-level
manipulation matters; dates as proleptic-Gregorian ordinals (`Nat`), matching
Python's `date.toordinal`, so that `date.weekday()` becomes `(d + 6) % 7`.
-/

namespace DotUpdate

/-- Whitespace set of Python's `str.strip()` for ASCII text:
space, tab, newline, carriage return, vertical tab, form feed. -/
def pyIsSpace (c : Char) : Bool :=
  c == ' ' || c == '\t' || c == '\n' || c == '\r' || c == '\x0b' || c == '\x0c'

/-- Python `s.strip()` on a character list: drop whitespace from both ends. -/
def pyStripChars (l : List Char) : List Char :=
  ((l.dropWhile pyIsSpace).reverse.dropWhile pyIsSpace).reverse

/-- The backtick character. -/
def backtick : Char := Char.ofNat 96

/-- The three-character markdown fence delimiter. -/
def fence : List Char := [backtick, backtick, backtick]

/-- Everything after the first newline; used for Python's
`content.split('\n', 1)[1]` (only ever applied when a newline is present). -/
def afterFirstNl : List Char → List Char
  | [] => []
  | c :: r => if c = '\n' then r else afterFirstNl r

/-- Helper for Python's `content.rsplit('```', 1)`: returns `some p` where `p`
is the part before the rightmost occurrence of the fence, or `none` when the
fence does not occur.  Occurrences further right (found in the tail) are
preferred, which matches `rsplit`'s right-to-left search. -/
def rsplitGo : List Char → Option (List Char)
  | [] => none
  | c :: r =>
    match rsplitGo r with
    | some p => some (c :: p)
    | none => if (c :: r).take 3 = fence then some [] else none

/-- Python `content.rsplit('```', 1)[0]`: the part before the last fence
occurrence, or the whole string when the fence does not occur. -/
def rsplitFenceHead (l : List Char) : List Char :=
  (rsplitGo l).getD l

/-- Translation of `strip_markdown_json` from `app.py`:
strip whitespace; if the text starts with a triple backtick, drop the first
line (or just the three backticks when there is no newline); if it ends with
a triple backtick, drop everything from the last fence on; strip again. -/
def strip_markdown_json (l : List Char) : List Char :=
  let c1 := pyStripChars l
  let c2 :=
    if c1.take 3 = fence then
      (if '\n' ∈ c1 then afterFirstNl c1 else c1.drop 3)
    else c1
  let c3 := if c2.reverse.take 3 = fence then rsplitFenceHead c2 else c2
  pyStripChars c3

/-- String-level wrapper of `strip_markdown_json`, used by the handler. -/
def stripMarkdownJsonStr (s : String) : String :=
  String.mk (strip_markdown_json s.toList)

/-- Python's `date.weekday()` on a proleptic-Gregorian ordinal:
0 = Monday .. 6 = Sunday (ordinal 1 is 0001-01-01, a Monday). -/
def pyWeekday (d : Nat) : Nat := (d + 6) % 7

/-- The `current.weekday() < 5` test of `get_working_days_from_today`:
Monday through Friday. -/
def isWorkday (d : Nat) : Bool := decide (pyWeekday d < 5)

/-- The `while added < days` loop of `get_working_days_from_today`:
advance one calendar day at a time, counting only weekdays, until `days`
weekdays have been added.  Terminates because each step either completes a
weekday or moves the weekday index forward through the weekend. -/
def gwLoop (days current added : Nat) : Nat :=
  if h : added < days then
    if hw : isWorkday (current + 1) then gwLoop days (current + 1) (added + 1)
    else gwLoop days (current + 1) added
  else current
termination_by 7 * (days - added) + (7 - (current + 6) % 7)
decreasing_by
  all_goals simp only [isWorkday, pyWeekday, decide_eq_true_eq] at *
  all_goals omega

/-- Translation of `get_working_days_from_today` from `app.py`, with today's
date passed explicitly as an ordinal.  The Python function returns
`current.isoformat()`; the embedding returns the date itself. -/
def get_working_days_from_today (today days : Nat) : Nat :=
  gwLoop days today 0

/-- Number of business days in the interval `(c, r]` of ordinals. -/
def businessDaysBetween (c r : Nat) : Nat :=
  (List.range' (c + 1) (r - c)).countP isWorkday

/-- Python `str.title()` worker for ASCII text: a letter is uppercased when
the previous character is not a letter, lowercased otherwise. -/
def pyTitleGo (prevAlpha : Bool) : List Char → List Char
  | [] => []
  | c :: r =>
    (if c.isAlpha then (if prevAlpha then c.toLower else c.toUpper) else c)
      :: pyTitleGo c.isAlpha r

/-- Python `s.title()`, as used on the extracted stage/status strings. -/
def titleStr (s : String) : String :=
  String.mk (pyTitleGo false s.toList)

/-- ExtractionResult: the JSON object decoded from the model reply.  Every
field is optional; `none` models both an absent key and a JSON `null`
(`dict.get` returns `None` for both). -/
structure Analysis where
  stage : Option String
  status : Option String
  withClient : Option Bool
  updateSummary : Option String
  updateDue : Option String
  hasBlocker : Option Bool
  blockerNote : Option String
  confidence : Option String
  confidenceNote : Option String
  teamsMessage : Option String
deriving DecidableEq, Repr

/-- Python truthiness of an optional string (`if analysis.get(k):`):
absent and empty collapse to `none`. -/
def tstr : Option String → Option String
  | some s => if s = "" then none else some s
  | none => none

/-- The update-due value: either the string the model supplied or the date
computed by `get_working_days_from_today` (which Python renders with
`isoformat()`, never the empty string). -/
inductive Due where
  | supplied (s : String)
  | computed (d : Nat)
deriving DecidableEq, Repr

/-- A value stored in the Airtable update payload. -/
inductive FieldValue where
  | fStr (s : String)
  | fBool (b : Bool)
  | fTime (t : Nat)
  | fDue (d : Due)
deriving DecidableEq, Repr

/-- Construction of `airtable_updates` (lines 165-179 of `app.py`), as an
association list in Python dict insertion order.  `now` stands for
`datetime.now()` at the moment the payload is built. -/
def buildUpdates (a : Analysis) (due : Due) (now : Nat) :
    List (String × FieldValue) :=
  (match tstr a.stage with
   | some s => [("Stage", FieldValue.fStr (titleStr s))]
   | none => [])
  ++ (match tstr a.status with
   | some s => [("Status", FieldValue.fStr (titleStr s)),
                ("Status Changed", FieldValue.fTime now)]
   | none => [])
  ++ (match a.withClient with
   | some b => [("With Client?", FieldValue.fBool b)]
   | none => [])
  ++ (match tstr a.updateSummary with
   | some s => [("Update", FieldValue.fStr s),
                ("Update due", FieldValue.fDue due)]
   | none => [])

/-- Field names of the update payload (`list(airtable_updates.keys())`). -/
def updateKeys (a : Analysis) (due : Due) (now : Nat) : List String :=
  (buildUpdates a due now).map Prod.fst

/-- The fields of a fetched project record (`current_data`). -/
structure RecFields where
  projectName : Option String
  stage : Option String
  status : Option String
  withClient : Option Bool
  updateNote : Option String
deriving DecidableEq, Repr

/-- The JSON request body once `request.get_json()` has produced a dict;
`emailContent`/`jobNumber` default to `''` when the keys are absent. -/
structure Req where
  emailContent : String
  jobNumber : String
deriving DecidableEq, Repr

/-- The 200-response body of the handler (lines 187-204 of `app.py`). -/
structure OkResp where
  jobNumber : String
  projectName : String
  previousStage : String
  previousStatus : String
  newStage : Option String
  newStatus : Option String
  withClient : Option Bool
  updateSummary : String
  updateDue : Due
  hasBlocker : Bool
  blockerNote : Option String
  confidence : String
  confidenceNote : Option String
  teamsMessage : Option String
  airtableUpdated : Bool
  fieldsUpdated : List String
deriving DecidableEq, Repr

/-- The possible responses of the `/update` handler.  `jsonError` carries the
fence-stripped text (`raw_response` in the 500 body); `internalError` is the
generic `except Exception` 500. -/
inductive HandlerResult where
  | ok (r : OkResp)
  | badRequest (msg : String)
  | notFound (err jobNumber : String)
  | jsonError (raw : String)
  | internalError
deriving DecidableEq, Repr

/-- HTTP status code attached to each response shape by `app.py`. -/
def statusOf : HandlerResult → Nat
  | HandlerResult.ok _ => 200
  | HandlerResult.badRequest _ => 400
  | HandlerResult.notFound _ _ => 404
  | HandlerResult.jsonError _ => 500
  | HandlerResult.internalError => 500

/-- Projection onto the 200-response, when there is one. -/
def okOf : HandlerResult → Option OkResp
  | HandlerResult.ok r => some r
  | _ => none

/-- The `/update` handler (lines 111-216 of `app.py`) as a function of its
request and of the results of its external calls.
* `body?` — `none` models `request.get_json()` raising (absent or non-JSON
  body) or returning a non-dict, which the `except Exception` arm turns into
  the generic 500; `some data` models a JSON dict body.
* `findResult` — result of `get_project_by_job_number`: `none` for zero
  matches or any lookup failure (both collapse to `(None, None)`).
* `reply` — text of the model's first content block.
* `jsonLoads` — abstract `json.loads` restricted to `Analysis`-shaped
  objects; `none` models `json.JSONDecodeError`.
* `today`, `now` — `date.today()` as an ordinal and `datetime.now()`.
* `patchOK` — result of `update_project_in_airtable` when it is called.
Returns the response together with whether the patch call was issued. -/
def update (body? : Option Req) (findResult : Option (String × RecFields))
    (reply : String) (jsonLoads : String → Option Analysis)
    (today now : Nat) (patchOK : Bool) : HandlerResult × Bool :=
  match body? with
  | none => (HandlerResult.internalError, false)
  | some data =>
    if data.emailContent = "" then
      (HandlerResult.badRequest "No email content provided", false)
    else if data.jobNumber = "" then
      (HandlerResult.badRequest "No job number provided", false)
    else
      match findResult with
      | none => (HandlerResult.notFound "Job not found" data.jobNumber, false)
      | some (_recordId, currentData) =>
        let content := stripMarkdownJsonStr reply
        match jsonLoads content with
        | none => (HandlerResult.jsonError content, false)
        | some analysis =>
          let update_due : Due :=
            match tstr analysis.updateDue with
            | some s => Due.supplied s
            | none => Due.computed (get_working_days_from_today today 5)
          let airtable_updates := buildUpdates analysis update_due now
          let update_success := if airtable_updates.isEmpty then false else patchOK
          (HandlerResult.ok
            { jobNumber := data.jobNumber
              projectName := currentData.projectName.getD ""
              previousStage := currentData.stage.getD ""
              previousStatus := currentData.status.getD ""
              newStage := analysis.stage
              newStatus := analysis.status
              withClient := analysis.withClient
              updateSummary := analysis.updateSummary.getD ""
              updateDue := update_due
              hasBlocker := analysis.hasBlocker.getD false
              blockerNote := analysis.blockerNote
              confidence := analysis.confidence.getD "MEDIUM"
              confidenceNote := analysis.confidenceNote
              teamsMessage := analysis.teamsMessage
              airtableUpdated := update_success
              fieldsUpdated := airtable_updates.map Prod.fst },
           !airtable_updates.isEmpty)

/-- Non-emptiness of the update-due value as a string: a model-supplied value
is the string itself; a computed date is rendered with `isoformat()`, which is
never empty for any date. -/
def dueNonEmpty : Due → Prop
  | Due.supplied s => s ≠ ""
  | Due.computed _ => True

/-- The `update_due` value of the handler, named:
`analysis.get('updateDue') or get_working_days_from_today(5)`. -/
def dueOf (a : Analysis) (today : Nat) : Due :=
  match tstr a.updateDue with
  | some s => Due.supplied s
  | none => Due.computed (get_working_days_from_today today 5)

/-- The 200-response record the handler builds on the success path, named so
that theorems can exhibit it. -/
def okRespOf (data : Req) (rec : RecFields) (a : Analysis)
    (today now : Nat) (patchOK : Bool) : OkResp :=
  { jobNumber := data.jobNumber
    projectName := rec.projectName.getD ""
    previousStage := rec.stage.getD ""
    previousStatus := rec.status.getD ""
    newStage := a.stage
    newStatus := a.status
    withClient := a.withClient
    updateSummary := a.updateSummary.getD ""
    updateDue := dueOf a today
    hasBlocker := a.hasBlocker.getD false
    blockerNote := a.blockerNote
    confidence := a.confidence.getD "MEDIUM"
    confidenceNote := a.confidenceNote
    teamsMessage := a.teamsMessage
    airtableUpdated :=
      if (buildUpdates a (dueOf a today) now).isEmpty then false else patchOK
    fieldsUpdated := (buildUpdates a (dueOf a today) now).map Prod.fst }

/-! ## Claim theorems -/

/-- On the success path — dict body, both inputs non-empty, record found,
reply parsed — the handler returns the `okRespOf` record and issues the patch
call exactly when the payload is non-empty. -/
theorem update_ok (data : Req) (recId : String) (rec : RecFields)
    (reply : String) (jsonLoads : String → Option Analysis)
    (today now : Nat) (patchOK : Bool) (a : Analysis)
    (h1 : data.emailContent ≠ "") (h2 : data.jobNumber ≠ "")
    (hjl : jsonLoads (stripMarkdownJsonStr reply) = some a) :
    update (some data) (some (recId, rec)) reply jsonLoads today now patchOK =
      (HandlerResult.ok (okRespOf data rec a today now patchOK),
       !(buildUpdates a (dueOf a today) now).isEmpty) := by
  simp only [update, h1, h2, hjl]
  rfl

/-- A truthy optional string is never the empty string. -/
theorem tstr_some_ne_empty {o : Option String} {s : String}
    (h : tstr o = some s) : s ≠ "" := by
  cases o with
  | none => simp [tstr] at h
  | some t =>
    simp only [tstr] at h
    by_cases ht : t = ""
    · simp [ht] at h
    · rw [if_neg ht] at h
      exact Option.some.inj h ▸ ht

/-- When the extracted update summary is absent or empty, no `Update due`
field is placed in the payload. -/
theorem update_due_not_mem (a : Analysis) (due : Due) (now : Nat)
    (hus : tstr a.updateSummary = none) :
    "Update due" ∉ updateKeys a due now := by
  cases hst : tstr a.stage <;> cases hss : tstr a.status <;>
    cases hwc : a.withClient <;>
    simp [updateKeys, buildUpdates, hst, hss, hwc, hus]

/-- C1: a field is included in the Airtable update payload exactly when the
corresponding extraction-result field is present and non-empty (for
`withClient`, present at all — `false` is a legitimate value to write); in
particular absent fields never overwrite existing record values.  Stated for
each of stage, status, withClient and updateSummary. -/
theorem claim_C1 (a : Analysis) (due : Due) (now : Nat) :
    ("Stage" ∈ updateKeys a due now ↔ tstr a.stage ≠ none) ∧
    ("Status" ∈ updateKeys a due now ↔ tstr a.status ≠ none) ∧
    ("With Client?" ∈ updateKeys a due now ↔ a.withClient ≠ none) ∧
    ("Update" ∈ updateKeys a due now ↔ tstr a.updateSummary ≠ none) := by
  cases hst : tstr a.stage <;> cases hss : tstr a.status <;>
    cases hwc : a.withClient <;> cases hus : tstr a.updateSummary <;>
    simp [updateKeys, buildUpdates, hst, hss, hwc, hus]

/-- C4: the payload carries the pair `("Status Changed", now)` — the
status-changed timestamp set to the current time — exactly when the extracted
status is present and non-empty; in particular, when status is absent no
status-changed field appears in the patch payload. -/
theorem claim_C4 (a : Analysis) (due : Due) (now : Nat) :
    (("Status Changed", FieldValue.fTime now) ∈ buildUpdates a due now ↔
      tstr a.status ≠ none) ∧
    ("Status Changed" ∈ updateKeys a due now ↔ tstr a.status ≠ none) := by
  cases hst : tstr a.stage <;> cases hss : tstr a.status <;>
    cases hwc : a.withClient <;> cases hus : tstr a.updateSummary <;>
    simp [updateKeys, buildUpdates, hst, hss, hwc, hus]

/-- C5: a request whose JSON body lacks `emailContent` or `jobNumber`
(absent keys default to `''`, and empty strings are falsy) gets a 400
response whose error message names the missing field. -/
theorem claim_C5 (data : Req) (findResult : Option (String × RecFields))
    (reply : String) (jsonLoads : String → Option Analysis)
    (today now : Nat) (patchOK : Bool) :
    (data.emailContent = "" →
      update (some data) findResult reply jsonLoads today now patchOK =
        (HandlerResult.badRequest "No email content provided", false) ∧
      statusOf (update (some data) findResult reply jsonLoads today now
        patchOK).1 = 400) ∧
    (data.emailContent ≠ "" → data.jobNumber = "" →
      update (some data) findResult reply jsonLoads today now patchOK =
        (HandlerResult.badRequest "No job number provided", false) ∧
      statusOf (update (some data) findResult reply jsonLoads today now
        patchOK).1 = 400) := by
  constructor
  · intro h
    simp [update, h, statusOf]
  · intro h1 h2
    simp [update, h1, h2, statusOf]

/-- Witness for C5 at concrete requests with each field missing. -/
theorem claim_C5_witness :
    (update (some { emailContent := "", jobNumber := "J-1" }) none "x"
        (fun _ => none) 0 0 false =
      (HandlerResult.badRequest "No email content provided", false)) ∧
    (update (some { emailContent := "hi", jobNumber := "" }) none "x"
        (fun _ => none) 0 0 false =
      (HandlerResult.badRequest "No job number provided", false)) :=
  ⟨((claim_C5 { emailContent := "", jobNumber := "J-1" } none "x"
      (fun _ => none) 0 0 false).1 rfl).1,
   ((claim_C5 { emailContent := "hi", jobNumber := "" } none "x"
      (fun _ => none) 0 0 false).2 (by decide) rfl).1⟩

/-- C6: when the record-store lookup yields no record — zero matches and all
lookup failures alike collapse to `(None, None)` in
`get_project_by_job_number` — the handler answers 404 and echoes the job
number in the response body. -/
theorem claim_C6 (data : Req) (reply : String)
    (jsonLoads : String → Option Analysis) (today now : Nat) (patchOK : Bool)
    (h1 : data.emailContent ≠ "") (h2 : data.jobNumber ≠ "") :
    update (some data) none reply jsonLoads today now patchOK =
      (HandlerResult.notFound "Job not found" data.jobNumber, false) ∧
    statusOf (update (some data) none reply jsonLoads today now patchOK).1 =
      404 := by
  simp [update, h1, h2, statusOf]

/-- Witness for C6 at a concrete unknown job number. -/
theorem claim_C6_witness :
    update (some { emailContent := "hi", jobNumber := "J-404" }) none "x"
        (fun _ => none) 0 0 false =
      (HandlerResult.notFound "Job not found" "J-404", false) :=
  (claim_C6 { emailContent := "hi", jobNumber := "J-404" } "x"
    (fun _ => none) 0 0 false (by decide) (by decide)).1

/-- C7: when the fence-stripped model reply is not valid JSON, the handler
answers 500 and the response carries the raw fence-stripped text
(`raw_response` in the body). -/
theorem claim_C7 (data : Req) (recId : String) (rec : RecFields)
    (reply : String) (jsonLoads : String → Option Analysis)
    (today now : Nat) (patchOK : Bool)
    (h1 : data.emailContent ≠ "") (h2 : data.jobNumber ≠ "")
    (hjl : jsonLoads (stripMarkdownJsonStr reply) = none) :
    update (some data) (some (recId, rec)) reply jsonLoads today now patchOK =
      (HandlerResult.jsonError (stripMarkdownJsonStr reply), false) ∧
    statusOf (update (some data) (some (recId, rec)) reply jsonLoads today now
      patchOK).1 = 500 := by
  simp [update, h1, h2, hjl, statusOf]

/-- Witness for C7: a parser that rejects everything yields the 500 carrying
the fence-stripped reply. -/
theorem claim_C7_witness :
    update (some { emailContent := "hi", jobNumber := "J-1" })
        (some ("rec1", ⟨none, none, none, none, none⟩)) "```\nnot json\n```"
        (fun _ => none) 0 0 false =
      (HandlerResult.jsonError (stripMarkdownJsonStr "```\nnot json\n```"),
        false) :=
  (claim_C7 { emailContent := "hi", jobNumber := "J-1" } "rec1"
    ⟨none, none, none, none, none⟩ "```\nnot json\n```" (fun _ => none) 0 0
    false (by decide) (by decide) rfl).1

/-- C10: when `request.get_json()` fails (absent body, non-JSON body) or does
not produce a dict, the raised exception is caught by the generic
`except Exception` arm: the handler answers with the generic 500 internal
error, never with a 400 validation error. -/
theorem claim_C10 (findResult : Option (String × RecFields)) (reply : String)
    (jsonLoads : String → Option Analysis) (today now : Nat) (patchOK : Bool) :
    update none findResult reply jsonLoads today now patchOK =
      (HandlerResult.internalError, false) ∧
    statusOf (update none findResult reply jsonLoads today now patchOK).1 =
      500 ∧
    ∀ msg, (update none findResult reply jsonLoads today now patchOK).1 ≠
      HandlerResult.badRequest msg := by
  simp [update, statusOf]

/-- C8: when every payload-driving extraction field is absent or empty, the
derived update set is empty, no patch call is issued (second component
`false`), and the 200 response reports `airtableUpdated = false` with an
empty `fieldsUpdated` list. -/
theorem claim_C8 (data : Req) (recId : String) (rec : RecFields)
    (reply : String) (jsonLoads : String → Option Analysis)
    (today now : Nat) (patchOK : Bool) (a : Analysis)
    (h1 : data.emailContent ≠ "") (h2 : data.jobNumber ≠ "")
    (hjl : jsonLoads (stripMarkdownJsonStr reply) = some a)
    (hst : tstr a.stage = none) (hss : tstr a.status = none)
    (hwc : a.withClient = none) (hus : tstr a.updateSummary = none) :
    (update (some data) (some (recId, rec)) reply jsonLoads today now
      patchOK).2 = false ∧
    (okOf (update (some data) (some (recId, rec)) reply jsonLoads today now
      patchOK).1).map OkResp.airtableUpdated = some false ∧
    (okOf (update (some data) (some (recId, rec)) reply jsonLoads today now
      patchOK).1).map OkResp.fieldsUpdated = some [] := by
  simp [update, h1, h2, hjl, buildUpdates, hst, hss, hwc, hus, okOf]

/-- Witness for C8: an extraction result with every field absent yields no
patch and an empty fields-updated list. -/
theorem claim_C8_witness :
    (update (some { emailContent := "hi", jobNumber := "J-1" })
      (some ("rec1", ⟨none, none, none, none, none⟩)) "ok"
      (fun _ => some ⟨none, none, none, none, none, none, none, none, none,
        none⟩) 0 0 true).2 = false ∧
    (okOf (update (some { emailContent := "hi", jobNumber := "J-1" })
      (some ("rec1", ⟨none, none, none, none, none⟩)) "ok"
      (fun _ => some ⟨none, none, none, none, none, none, none, none, none,
        none⟩) 0 0 true).1).map OkResp.airtableUpdated = some false ∧
    (okOf (update (some { emailContent := "hi", jobNumber := "J-1" })
      (some ("rec1", ⟨none, none, none, none, none⟩)) "ok"
      (fun _ => some ⟨none, none, none, none, none, none, none, none, none,
        none⟩) 0 0 true).1).map OkResp.fieldsUpdated = some [] :=
  claim_C8 { emailContent := "hi", jobNumber := "J-1" } "rec1"
    ⟨none, none, none, none, none⟩ "ok"
    (fun _ => some ⟨none, none, none, none, none, none, none, none, none,
      none⟩) 0 0 true
    ⟨none, none, none, none, none, none, none, none, none, none⟩
    (by decide) (by decide) rfl rfl rfl rfl rfl

/-- C9: every 200 response sets `updateDue` to a non-empty value — the
model-supplied string when present and non-empty, otherwise the computed
5-business-day date — even when the update summary is absent and no due date
is written to the record store. -/
theorem claim_C9 (data : Req) (recId : String) (rec : RecFields)
    (reply : String) (jsonLoads : String → Option Analysis)
    (today now : Nat) (patchOK : Bool) (a : Analysis)
    (h1 : data.emailContent ≠ "") (h2 : data.jobNumber ≠ "")
    (hjl : jsonLoads (stripMarkdownJsonStr reply) = some a) :
    ∃ r, okOf (update (some data) (some (recId, rec)) reply jsonLoads today
        now patchOK).1 = some r ∧
      r.updateDue = (match tstr a.updateDue with
        | some s => Due.supplied s
        | none => Due.computed (get_working_days_from_today today 5)) ∧
      dueNonEmpty r.updateDue ∧
      (tstr a.updateSummary = none → "Update due" ∉ r.fieldsUpdated) := by
  refine ⟨okRespOf data rec a today now patchOK, ?_, ?_, ?_, ?_⟩
  · rw [update_ok data recId rec reply jsonLoads today now patchOK a h1 h2 hjl]
    simp [okOf]
  · cases hud : tstr a.updateDue <;> simp [okRespOf, dueOf, hud]
  · cases hud : tstr a.updateDue with
    | none => simp [okRespOf, dueOf, hud, dueNonEmpty]
    | some s =>
      simpa [okRespOf, dueOf, hud, dueNonEmpty] using tstr_some_ne_empty hud
  · intro hus
    exact update_due_not_mem a _ now hus

/-! ## String lemmas for the fence-stripping claim -/

/-- `dropWhile` is idempotent. -/
theorem dropWhile_idem (p : Char → Bool) (l : List Char) :
    (l.dropWhile p).dropWhile p = l.dropWhile p := by
  induction l with
  | nil => rfl
  | cons c r ih =>
    by_cases hc : p c
    · simp [List.dropWhile_cons, hc, ih]
    · simp [List.dropWhile_cons, hc]

/-- `dropWhile` never lengthens a list. -/
theorem dropWhile_length_le (p : Char → Bool) (l : List Char) :
    (l.dropWhile p).length ≤ l.length := by
  induction l with
  | nil => exact Nat.le_refl 0
  | cons c r ih =>
    by_cases hc : p c
    · rw [List.dropWhile_cons, if_pos hc]
      exact Nat.le_succ_of_le ih
    · rw [List.dropWhile_cons, if_neg hc]

/-- A list splits into the dropped-space part and its `dropWhile`. -/
theorem dropWhile_spaces_split (p : Char → Bool) (l : List Char) :
    ∃ t, l = t ++ l.dropWhile p := by
  induction l with
  | nil => exact ⟨[], rfl⟩
  | cons c r ih =>
    by_cases hc : p c
    · obtain ⟨t, ht⟩ := ih
      refine ⟨c :: t, ?_⟩
      rw [List.dropWhile_cons, if_pos hc, List.cons_append, ← ht]
    · exact ⟨[], by rw [List.dropWhile_cons, if_neg hc, List.nil_append]⟩

/-- A left part of a `dropWhile`-fixed list is itself `dropWhile`-fixed. -/
theorem dropWhile_eq_self_of_left (p : Char → Bool) (A B s : List Char)
    (h : A.dropWhile p = A) (hs : A = B ++ s) : B.dropWhile p = B := by
  cases B with
  | nil => rfl
  | cons b t =>
    by_cases hb : p b
    · exfalso
      subst hs
      rw [List.cons_append, List.dropWhile_cons, if_pos hb] at h
      have hlen := dropWhile_length_le p (t ++ s)
      have hcg := congrArg List.length h
      rw [List.length_cons] at hcg
      omega
    · rw [List.dropWhile_cons, if_neg hb]

/-- Python's `strip` is idempotent. -/
theorem pyStripChars_idem (l : List Char) :
    pyStripChars (pyStripChars l) = pyStripChars l := by
  unfold pyStripChars
  have hAd := dropWhile_idem pyIsSpace l
  have hDd := dropWhile_idem pyIsSpace (l.dropWhile pyIsSpace).reverse
  obtain ⟨t, ht⟩ :=
    dropWhile_spaces_split pyIsSpace (l.dropWhile pyIsSpace).reverse
  have hpre : l.dropWhile pyIsSpace =
      ((l.dropWhile pyIsSpace).reverse.dropWhile pyIsSpace).reverse ++
        t.reverse := by
    conv_lhs => rw [← List.reverse_reverse (l.dropWhile pyIsSpace), ht]
    rw [List.reverse_append]
  have hRd := dropWhile_eq_self_of_left pyIsSpace (l.dropWhile pyIsSpace)
    ((l.dropWhile pyIsSpace).reverse.dropWhile pyIsSpace).reverse t.reverse
    hAd hpre
  rw [hRd, List.reverse_reverse, hDd]

/-- Dropping whitespace runs through an all-whitespace block onto a
non-whitespace head. -/
theorem dropWhile_spaces_cons (p : Char → Bool) (ws rest : List Char)
    (c : Char) (h : ∀ x ∈ ws, p x = true) (hc : p c = false) :
    (ws ++ c :: rest).dropWhile p = c :: rest := by
  induction ws with
  | nil => rw [List.nil_append, List.dropWhile_cons, hc]; simp
  | cons w tws ih =>
    have hw : p w = true := h w (by simp)
    rw [List.cons_append, List.dropWhile_cons, hw]
    exact ih (fun x hx => h x (by simp [hx]))

/-- Stripping whitespace around a backtick-delimited block returns exactly
the block. -/
theorem strip_sandwich (ws1 ws2 core : List Char)
    (h1 : ∀ c ∈ ws1, pyIsSpace c = true) (h2 : ∀ c ∈ ws2, pyIsSpace c = true) :
    pyStripChars (ws1 ++ (backtick :: core ++ [backtick]) ++ ws2) =
      backtick :: core ++ [backtick] := by
  have hb : pyIsSpace backtick = false := by decide
  have h2r : ∀ c ∈ ws2.reverse, pyIsSpace c = true := by
    intro c hc
    exact h2 c (List.mem_reverse.mp hc)
  unfold pyStripChars
  have e1 : ws1 ++ (backtick :: core ++ [backtick]) ++ ws2 =
      ws1 ++ backtick :: (core ++ [backtick] ++ ws2) := by simp
  rw [e1, dropWhile_spaces_cons pyIsSpace ws1 _ backtick h1 hb]
  have e2 : (backtick :: (core ++ [backtick] ++ ws2)).reverse =
      ws2.reverse ++ backtick :: (core.reverse ++ [backtick]) := by simp
  rw [e2, dropWhile_spaces_cons pyIsSpace ws2.reverse _ backtick h2r hb]
  simp

/-- `split('\n', 1)[1]` through a newline-free block. -/
theorem afterFirstNl_through (pre rest : List Char) (h : '\n' ∉ pre) :
    afterFirstNl (pre ++ '\n' :: rest) = rest := by
  induction pre with
  | nil => simp [afterFirstNl]
  | cons c t ih =>
    have hc : ¬ c = '\n' := fun hcn => h (by simp [hcn])
    rw [List.cons_append]
    rw [afterFirstNl, if_neg hc]
    exact ih (fun hx => h (by simp [hx]))

/-- `rsplit('```', 1)[0]` on text ending in a fence removes exactly that
final fence: the rightmost occurrence starts at the end. -/
theorem rsplitGo_append_fence (body : List Char) :
    rsplitGo (body ++ fence) = some body := by
  induction body with
  | nil => rfl
  | cons c b ih => simp [rsplitGo, ih]

/-- C2: a reply wrapped in a triple-backtick fence has the opening fence line
(including any newline-free language tag) and the closing fence removed
before parsing — both for the multi-line form and for a single-line
fenced reply — while a reply carrying no fence at either end of its trimmed
text reaches the parser unchanged apart from surrounding whitespace. -/
theorem claim_C2 :
    (∀ ws1 ws2 tag body : List Char,
        (∀ c ∈ ws1, pyIsSpace c = true) → (∀ c ∈ ws2, pyIsSpace c = true) →
        '\n' ∉ tag →
        strip_markdown_json
            (ws1 ++ (fence ++ tag ++ '\n' :: body ++ fence) ++ ws2) =
          pyStripChars body) ∧
    (∀ body : List Char, '\n' ∉ body →
        strip_markdown_json (fence ++ body ++ fence) = pyStripChars body) ∧
    (∀ l : List Char,
        (pyStripChars l).take 3 ≠ fence →
        (pyStripChars l).reverse.take 3 ≠ fence →
        strip_markdown_json l = pyStripChars l) := by
  have hrevfence : fence.reverse = fence := by decide
  have hlen3 : fence.length = 3 := rfl
  refine ⟨?_, ?_, ?_⟩
  · intro ws1 ws2 tag body h1 h2 htag
    have hsand : pyStripChars
        (ws1 ++ (fence ++ tag ++ '\n' :: body ++ fence) ++ ws2) =
        fence ++ tag ++ '\n' :: body ++ fence := by
      have hcore := strip_sandwich ws1 ws2
        (backtick :: backtick :: tag ++ '\n' :: body ++ [backtick, backtick])
        h1 h2
      simpa [fence, List.append_assoc] using hcore
    simp only [strip_markdown_json]
    rw [hsand]
    have ht3 : (fence ++ tag ++ '\n' :: body ++ fence).take 3 = fence := by
      rw [← hlen3]
      exact List.take_left fence (tag ++ '\n' :: body ++ fence)
    rw [if_pos ht3]
    have hnl : '\n' ∈ fence ++ tag ++ '\n' :: body ++ fence := by simp
    rw [if_pos hnl]
    have hpre : '\n' ∉ fence ++ tag := by
      intro hmem
      rcases List.mem_append.mp hmem with hf | ht
      · exact absurd hf (by decide)
      · exact htag ht
    have hafter : afterFirstNl (fence ++ tag ++ '\n' :: body ++ fence) =
        body ++ fence := by
      have := afterFirstNl_through (fence ++ tag) (body ++ fence) hpre
      simpa [List.append_assoc] using this
    rw [hafter]
    have hrev : ((body ++ fence).reverse).take 3 = fence := by
      rw [List.reverse_append, hrevfence, ← hlen3]
      exact List.take_left fence body.reverse
    rw [if_pos hrev]
    simp only [rsplitFenceHead, rsplitGo_append_fence, Option.getD_some]
  · intro body hb
    have hsand : pyStripChars (fence ++ body ++ fence) =
        fence ++ body ++ fence := by
      have hcore := strip_sandwich [] []
        (backtick :: backtick :: body ++ [backtick, backtick])
        (by simp) (by simp)
      simpa [fence, List.append_assoc] using hcore
    simp only [strip_markdown_json]
    rw [hsand]
    have ht3 : (fence ++ body ++ fence).take 3 = fence := by
      rw [← hlen3]
      exact List.take_left fence (body ++ fence)
    rw [if_pos ht3]
    have hnl : '\n' ∉ fence ++ body ++ fence := by
      intro hmem
      simp only [List.mem_append] at hmem
      rcases hmem with (hf | hbb) | hf2
      · exact absurd hf (by decide)
      · exact hb hbb
      · exact absurd hf2 (by decide)
    rw [if_neg hnl]
    have hdrop : (fence ++ body ++ fence).drop 3 = body ++ fence := by
      rw [← hlen3]
      exact List.drop_left fence (body ++ fence)
    rw [hdrop]
    have hrev : ((body ++ fence).reverse).take 3 = fence := by
      rw [List.reverse_append, hrevfence, ← hlen3]
      exact List.take_left fence body.reverse
    rw [if_pos hrev]
    simp only [rsplitFenceHead, rsplitGo_append_fence, Option.getD_some]
  · intro l hA hB
    simp only [strip_markdown_json]
    rw [if_neg hA, if_neg hB, pyStripChars_idem]

/-- Witness for C2: a tagged fenced reply, a single-line fenced reply and an
unfenced reply, each at concrete text. -/
theorem claim_C2_witness :
    strip_markdown_json
        ([' '] ++ (fence ++ ['j', 's', 'o', 'n'] ++ '\n' :: ['a'] ++ fence) ++
          [' ']) = pyStripChars ['a'] ∧
    strip_markdown_json (fence ++ ['a'] ++ fence) = pyStripChars ['a'] ∧
    strip_markdown_json [' ', 'a', ' '] = pyStripChars [' ', 'a', ' '] :=
  ⟨claim_C2.1 [' '] [' '] ['j', 's', 'o', 'n'] ['a'] (by decide) (by decide)
      (by decide),
   claim_C2.2.1 ['a'] (by decide),
   claim_C2.2.2 [' ', 'a', ' '] (by decide) (by decide)⟩

/-! ## Business-day lemmas -/

/-- The interval `(c, c]` holds no business day. -/
theorem businessDaysBetween_self (c : Nat) : businessDaysBetween c c = 0 := by
  simp [businessDaysBetween]

/-- Peeling the first day off a business-day count. -/
theorem businessDaysBetween_succ (c r : Nat) (h : c < r) :
    businessDaysBetween c r =
      (if isWorkday (c + 1) then 1 else 0) +
        businessDaysBetween (c + 1) r := by
  unfold businessDaysBetween
  have e : r - c = (r - (c + 1)) + 1 := by omega
  rw [e, List.range'_succ, List.countP_cons]
  exact Nat.add_comm _ _

/-- Invariant of the working-day loop: the result does not move backwards,
the interval walked contains exactly the missing number of business days,
the result is a weekday whenever at least one day was still to add, and the
loop is the identity when nothing was left to add. -/
theorem gwLoop_spec (days current added : Nat) :
    added ≤ days →
    current ≤ gwLoop days current added ∧
    businessDaysBetween current (gwLoop days current added) = days - added ∧
    (added < days → isWorkday (gwLoop days current added) = true) ∧
    (added = days → gwLoop days current added = current) := by
  induction current, added using gwLoop.induct days with
  | case1 current added h1 hw ih =>
    intro _
    obtain ⟨ihle, ihcount, ihwk, iheq⟩ := ih (by omega)
    have hunf : gwLoop days current added = gwLoop days (current + 1)
        (added + 1) := by
      rw [gwLoop, dif_pos h1, dif_pos hw]
    rw [hunf]
    refine ⟨by omega, ?_, fun _ => ?_, fun heq => by omega⟩
    · have hlt : current < gwLoop days (current + 1) (added + 1) := by omega
      rw [businessDaysBetween_succ current _ hlt, if_pos hw, ihcount]
      omega
    · by_cases hlast : added + 1 < days
      · exact ihwk hlast
      · rw [iheq (by omega)]
        exact hw
  | case2 current added h1 hw ih =>
    intro _
    obtain ⟨ihle, ihcount, ihwk, iheq⟩ := ih (by omega)
    have hunf : gwLoop days current added = gwLoop days (current + 1)
        added := by
      rw [gwLoop, dif_pos h1, dif_neg hw]
    rw [hunf]
    refine ⟨by omega, ?_, fun _ => ihwk h1, fun heq => by omega⟩
    have hlt : current < gwLoop days (current + 1) added := by omega
    rw [businessDaysBetween_succ current _ hlt, if_neg hw, ihcount]
    omega
  | case3 current added h1 =>
    intro hle
    have hunf : gwLoop days current added = current := by
      rw [gwLoop, dif_neg h1]
    rw [hunf]
    refine ⟨Nat.le_refl _, ?_, fun hlt => absurd hlt h1, fun _ => rfl⟩
    rw [businessDaysBetween_self]
    omega

/-- C3: for every current date, the computed working-day date is a weekday
lying strictly after today with exactly 5 business days in between (only
Saturdays and Sundays are skipped, there being no holiday calendar); and the
handler uses this value as the update-due date — in the response and, when an
update summary is present, in the stored payload — whenever the extraction
result supplies none. -/
theorem claim_C3 :
    (∀ today : Nat,
        isWorkday (get_working_days_from_today today 5) = true ∧
        today < get_working_days_from_today today 5 ∧
        businessDaysBetween today (get_working_days_from_today today 5) = 5) ∧
    (∀ (data : Req) (recId : String) (rec : RecFields) (reply : String)
        (jsonLoads : String → Option Analysis) (today now : Nat)
        (patchOK : Bool) (a : Analysis),
        data.emailContent ≠ "" → data.jobNumber ≠ "" →
        jsonLoads (stripMarkdownJsonStr reply) = some a →
        tstr a.updateDue = none →
        (okOf (update (some data) (some (recId, rec)) reply jsonLoads today
            now patchOK).1).map OkResp.updateDue =
          some (Due.computed (get_working_days_from_today today 5)) ∧
        (∀ s, tstr a.updateSummary = some s →
          ("Update due",
              FieldValue.fDue (Due.computed (get_working_days_from_today
                today 5))) ∈ buildUpdates a (dueOf a today) now)) := by
  constructor
  · intro today
    obtain ⟨hle, hcount, hwk, _⟩ := gwLoop_spec 5 today 0 (by omega)
    have h5 : businessDaysBetween today (gwLoop 5 today 0) = 5 := hcount
    have hlt : today < gwLoop 5 today 0 := by
      rcases Nat.eq_or_lt_of_le hle with heq | hlt
      · exfalso
        rw [← heq, businessDaysBetween_self] at h5
        omega
      · exact hlt
    exact ⟨hwk (by omega), hlt, h5⟩
  · intro data recId rec reply jsonLoads today now patchOK a h1 h2 hjl hud
    constructor
    · rw [update_ok data recId rec reply jsonLoads today now patchOK a h1 h2
        hjl]
      simp [okOf, okRespOf, dueOf, hud]
    · intro s hus
      cases hst : tstr a.stage <;> cases hss : tstr a.status <;>
        cases hwc : a.withClient <;>
        simp [buildUpdates, hst, hss, hwc, hus, dueOf, hud]

/-- Witness for C3 at today = 0 and at a concrete request whose extraction
result has a summary but no supplied due date. -/
theorem claim_C3_witness :
    (isWorkday (get_working_days_from_today 0 5) = true ∧
      0 < get_working_days_from_today 0 5 ∧
      businessDaysBetween 0 (get_working_days_from_today 0 5) = 5) ∧
    (okOf (update (some { emailContent := "hi", jobNumber := "J-1" })
        (some ("rec1", ⟨none, none, none, none, none⟩)) "ok"
        (fun _ => some ⟨none, none, none, some "done", none, none, none,
          none, none, none⟩) 3 0 true).1).map OkResp.updateDue =
      some (Due.computed (get_working_days_from_today 3 5)) ∧
    ("Update due",
        FieldValue.fDue (Due.computed (get_working_days_from_today 3 5))) ∈
      buildUpdates
        ⟨none, none, none, some "done", none, none, none, none, none, none⟩
        (dueOf ⟨none, none, none, some "done", none, none, none, none, none,
          none⟩ 3) 0 :=
  ⟨claim_C3.1 0,
   (claim_C3.2 { emailContent := "hi", jobNumber := "J-1" } "rec1"
      ⟨none, none, none, none, none⟩ "ok"
      (fun _ => some ⟨none, none, none, some "done", none, none, none, none,
        none, none⟩) 3 0 true
      ⟨none, none, none, some "done", none, none, none, none, none, none⟩
      (by decide) (by decide) rfl rfl).1,
   (claim_C3.2 { emailContent := "hi", jobNumber := "J-1" } "rec1"
      ⟨none, none, none, none, none⟩ "ok"
      (fun _ => some ⟨none, none, none, some "done", none, none, none, none,
        none, none⟩) 3 0 true
      ⟨none, none, none, some "done", none, none, none, none, none, none⟩
      (by decide) (by decide) rfl rfl).2 "done" rfl⟩

/-- Witness for C9: a parsed extraction result with no fields set still
yields a response whose `updateDue` is the computed date. -/
theorem claim_C9_witness :
    ∃ r, okOf (update (some { emailContent := "hi", jobNumber := "J-1" })
        (some ("rec1", ⟨none, none, none, none, none⟩)) "ok"
        (fun _ => some ⟨none, none, none, none, none, none, none, none, none,
          none⟩) 7 0 false).1 = some r ∧
      r.updateDue = (match tstr (⟨none, none, none, none, none, none, none,
          none, none, none⟩ : Analysis).updateDue with
        | some s => Due.supplied s
        | none => Due.computed (get_working_days_from_today 7 5)) ∧
      dueNonEmpty r.updateDue ∧
      (tstr (⟨none, none, none, none, none, none, none, none, none,
          none⟩ : Analysis).updateSummary = none →
        "Update due" ∉ r.fieldsUpdated) :=
  claim_C9 { emailContent := "hi", jobNumber := "J-1" } "rec1"
    ⟨none, none, none, none, none⟩ "ok"
    (fun _ => some ⟨none, none, none, none, none, none, none, none, none,
      none⟩) 7 0 false
    ⟨none, none, none, none, none, none, none, none, none, none⟩
    (by decide) (by decide) rfl

/-- Witness for C1 at a concrete extraction result with stage and summary
set, status absent and withClient false. -/
theorem claim_C1_witness :
    ("Stage" ∈ updateKeys ⟨some "build", none, some false, some "done", none,
        none, none, none, none, none⟩ (Due.supplied "d") 0 ↔
      tstr (⟨some "build", none, some false, some "done", none, none, none,
        none, none, none⟩ : Analysis).stage ≠ none) ∧
    ("Status" ∈ updateKeys ⟨some "build", none, some false, some "done", none,
        none, none, none, none, none⟩ (Due.supplied "d") 0 ↔
      tstr (⟨some "build", none, some false, some "done", none, none, none,
        none, none, none⟩ : Analysis).status ≠ none) ∧
    ("With Client?" ∈ updateKeys ⟨some "build", none, some false, some "done",
        none, none, none, none, none, none⟩ (Due.supplied "d") 0 ↔
      (⟨some "build", none, some false, some "done", none, none, none, none,
        none, none⟩ : Analysis).withClient ≠ none) ∧
    ("Update" ∈ updateKeys ⟨some "build", none, some false, some "done", none,
        none, none, none, none, none⟩ (Due.supplied "d") 0 ↔
      tstr (⟨some "build", none, some false, some "done", none, none, none,
        none, none, none⟩ : Analysis).updateSummary ≠ none) :=
  claim_C1 ⟨some "build", none, some false, some "done", none, none, none,
    none, none, none⟩ (Due.supplied "d") 0

/-- Witness for C4 at a concrete extraction result with status set. -/
theorem claim_C4_witness :
    (("Status Changed", FieldValue.fTime 42) ∈ buildUpdates
        ⟨none, some "live", none, none, none, none, none, none, none, none⟩
        (Due.computed 9) 42 ↔
      tstr (⟨none, some "live", none, none, none, none, none, none, none,
        none⟩ : Analysis).status ≠ none) ∧
    ("Status Changed" ∈ updateKeys
        ⟨none, some "live", none, none, none, none, none, none, none, none⟩
        (Due.computed 9) 42 ↔
      tstr (⟨none, some "live", none, none, none, none, none, none, none,
        none⟩ : Analysis).status ≠ none) :=
  claim_C4 ⟨none, some "live", none, none, none, none, none, none, none,
    none⟩ (Due.computed 9) 42

/-- Witness for C10 at a concrete failed body parse. -/
theorem claim_C10_witness :
    update none none "x" (fun _ => none) 0 0 false =
      (HandlerResult.internalError, false) ∧
    statusOf (update none none "x" (fun _ => none) 0 0 false).1 = 500 ∧
    (update none none "x" (fun _ => none) 0 0 false).1 ≠
      HandlerResult.badRequest "No email content provided" :=
  ⟨(claim_C10 none "x" (fun _ => none) 0 0 false).1,
   (claim_C10 none "x" (fun _ => none) 0 0 false).2.1,
   (claim_C10 none "x" (fun _ => none) 0 0 false).2.2
     "No email content provided"⟩

end DotUpdate
